import Mathlib

/-!
Shallow embedding of the tornado-management-command repository
(`manage.py` plus its sample command modules).  Python dictionaries are
modelled as insertion-ordered association lists with dict-update
semantics, Python `None`/`int`/`str` values as an inductive `Value`,
modules and command classes as structures with `Option` fields standing
for possibly-missing attributes, and the Python 2.7 `argparse` behaviour
the code relies on (required subcommand, `--flag=value` splitting, type
coercion, required-flag check, `-h` exiting 0) as executable functions.
-/

namespace Manage

/-- A Python runtime value as far as the command framework observes it. -/
inductive Value where
  | vNone
  | vInt (n : Int)
  | vStr (s : String)
deriving DecidableEq, Repr

/-- An argparse `Namespace`: attribute name to value, insertion ordered. -/
abbrev PyNamespace := List (String × Value)

/-- The value-coercion callable passed as the `type` option of a flag
(`int` or `str` in every command of the repository). -/
inductive FlagType where
  | tInt
  | tStr
deriving DecidableEq, Repr

/-- One flag's configuration dictionary, as passed to
`add_argument(name, **parameters)`.  `unsupported` lists keyword
arguments that the argparse layer rejects with a `TypeError`; a
well-formed schema has `unsupported = []`. -/
structure FlagSpec where
  type : FlagType := FlagType.tStr
  help : Option String := Option.none
  metavar : Option String := Option.none
  required : Bool := false
  default : Value := Value.vNone
  unsupported : List String := []
deriving DecidableEq, Repr

/-- Exceptions the embedded code can raise. -/
inductive PyError where
  | attributeError (msg : String)
  | keyError (key : String)
  | typeError (msg : String)
  | other (msg : String)
deriving DecidableEq, Repr

/-- The `Command` class of a command module.  `description` and
`arguments` are `Option` because a class may lack those attributes
(reading them then raises `AttributeError`); `call` is the execution
entry point, returning the lines it prints or raising. -/
structure CommandClass where
  description : Option String := Option.none
  arguments : Option (List (String × FlagSpec)) := Option.none
  call : Option (PyNamespace → Except PyError (List String)) := Option.none

/-- A command module: it may or may not expose a `Command` attribute
(e.g. `command_with_wrong_classname.py` defines `WrongCommand` instead,
so its `command` is `none`). -/
structure Module where
  command : Option CommandClass := Option.none

/-- The registry built by `CommandRunner.command_list`: a Python dict
from module name to module, as an insertion-ordered association list. -/
abbrev Registry := List (String × Module)

/-- Python dict assignment `d[k] = v`: replace in place if the key
exists, append otherwise. -/
def dictInsert : Registry → String → Module → Registry
  | [], k, v => [(k, v)]
  | (a, b) :: t, k, v =>
      if a == k then (k, v) :: t else (a, b) :: dictInsert t k v

/-- The loop body of `command_list`: `self._command_list[name] = import(...)`
over every module yielded by `pkgutil.iter_modules`.  A package is the
list of (module name, module) pairs in enumeration order. -/
def build (pkg : List (String × Module)) : Registry :=
  pkg.foldl (fun d nm => dictInsert d nm.1 nm.2) []

/-- The `_command_list` attribute: `None` before the first build. -/
abbrev Cache := Option Registry

/-- Python truthiness of `self._command_list`: `None` and the empty dict
are falsy. -/
def truthy : Cache → Bool
  | Option.none => false
  | some r => !r.isEmpty

/-- `CommandRunner.command_list` (property).  Returns the mapping, the
new `_command_list` attribute, and whether the namespace was enumerated
on this access. -/
def command_list (pkg : List (String × Module)) (c : Cache) :
    Registry × Cache × Bool :=
  if truthy c then (c.getD [], c, false)
  else (build pkg, some (build pkg), true)

/-- One registered subparser: its name, its `help=description`, the
flags added to it, and the `which` default installed by
`set_defaults(which=command)`. -/
structure Subparser where
  name : String
  help : String
  flags : List (String × FlagSpec)
  whichDefault : String
deriving DecidableEq, Repr

/-- The built top-level parser. -/
structure Parser where
  description : String
  subparsers : List Subparser
deriving DecidableEq, Repr

/-- The `try` block of `argument_parser`: reading
`module.Command.description` and `module.Command.arguments`; any
missing attribute raises `AttributeError`, which the builder catches
and turns into a skip. -/
def getConforming (m : Module) : Option (String × List (String × FlagSpec)) :=
  match m.command with
  | Option.none => Option.none
  | some cls =>
    match cls.description with
    | Option.none => Option.none
    | some d =>
      match cls.arguments with
      | Option.none => Option.none
      | some a => some (d, a)

/-- The `add_argument` loop over one command's schema.  An unsupported
keyword argument raises `TypeError`, which is not caught anywhere. -/
def addFlags (sp : Subparser) : List (String × FlagSpec) → Except PyError Subparser
  | [] => Except.ok sp
  | fp :: rest =>
    if fp.2.unsupported.isEmpty then
      addFlags { sp with flags := sp.flags ++ [fp] } rest
    else
      Except.error (PyError.typeError
        ("unexpected keyword argument " ++ fp.2.unsupported.headD ""))

/-- The freshly added subparser for a conforming command, before its
flags are added: `subparsers.add_parser(command, help=description)`
followed by `set_defaults(which=command)`. -/
def spInit (n d : String) : Subparser :=
  { name := n, help := d, flags := [], whichDefault := n }

/-- The registry loop of `argument_parser`: non-conforming modules are
skipped (the `except AttributeError` branch logs and continues), while
`add_argument` errors propagate. -/
def buildSubparsers : Registry → Except PyError (List Subparser)
  | [] => Except.ok []
  | nm :: rest =>
    match getConforming nm.2 with
    | Option.none => buildSubparsers rest
    | some da =>
      match addFlags (spInit nm.1 da.1) da.2 with
      | Except.error e => Except.error e
      | Except.ok sp =>
        match buildSubparsers rest with
        | Except.error e => Except.error e
        | Except.ok sps => Except.ok (sp :: sps)

/-- `CommandRunner.argument_parser` (property): reads `command_list`
(possibly building the cache) and constructs the parser. -/
def argumentParser (pkg : List (String × Module)) (c : Cache) :
    Except PyError Parser × Cache :=
  ((match buildSubparsers (command_list pkg c).1 with
    | Except.error e => Except.error e
    | Except.ok sps =>
        Except.ok { description := "Runs a management command",
                    subparsers := sps }),
   (command_list pkg c).2.1)

/-- argparse dest of an option string: strip leading dashes, then map
remaining dashes to underscores (`--user_id` becomes `user_id`). -/
def destChars : List Char → List Char
  | [] => []
  | ch :: cs => (if ch == '-' then '_' else ch) :: destChars cs

/-- argparse destination attribute name for a flag. -/
def dest (flag : String) : String :=
  String.mk (destChars (flag.data.dropWhile (fun ch => ch == '-')))

/-- Split a token at its first `=`, as argparse does for
`--flag=value`. -/
def splitEqAux : List Char → List Char → List Char × Option (List Char)
  | acc, [] => (acc.reverse, Option.none)
  | acc, '=' :: rest => (acc.reverse, some rest)
  | acc, ch :: rest => splitEqAux (ch :: acc) rest

/-- Token splitting for `--flag=value` syntax. -/
def splitEq (tok : String) : String × Option String :=
  match splitEqAux [] tok.data with
  | (a, Option.none) => (String.mk a, Option.none)
  | (a, some b) => (String.mk a, some (String.mk b))

/-- Leading-run test on character lists. -/
def charsStartWith : List Char → List Char → Bool
  | _, [] => true
  | [], _ :: _ => false
  | a :: as, b :: bs => a == b && charsStartWith as bs

/-- Does the string start with the given run of characters? -/
def strStarts (s : String) (p : List Char) : Bool :=
  charsStartWith s.data p

/-- Decimal digit accumulation for `int(...)` coercion. -/
def parseNatAux : List Char → Nat → Option Nat
  | [], acc => some acc
  | ch :: cs, acc =>
      if ch.isDigit then parseNatAux cs (acc * 10 + (ch.toNat - '0'.toNat))
      else Option.none

/-- `int(s)` over a nonempty digit string, else a conversion failure. -/
def parseIntChars : List Char → Option Int
  | [] => Option.none
  | '-' :: cs =>
      match cs with
      | [] => Option.none
      | _ => (parseNatAux cs 0).map (fun n => -(n : Int))
  | cs => (parseNatAux cs 0).map (fun n => (n : Int))

/-- Apply the flag's `type` callable to the raw string. -/
def coerceVal : FlagType → String → Option Value
  | FlagType.tInt, s => (parseIntChars s.data).map Value.vInt
  | FlagType.tStr, s => some (Value.vStr s)

/-- Attribute read on a namespace. -/
def nsGet (ns : PyNamespace) (k : String) : Option Value :=
  (ns.find? (fun p => p.1 == k)).map (fun p => p.2)

/-- `setattr` on a namespace (dict update semantics). -/
def nsSet : PyNamespace → String → Value → PyNamespace
  | [], k, v => [(k, v)]
  | (a, b) :: t, k, v =>
      if a == k then (k, v) :: t else (a, b) :: nsSet t k v

/-- Namespace initialisation in `parse_known_args`: action defaults are
set first, then parser defaults (from `set_defaults`) only for
attributes not already present.  So a flag whose dest is `which`
shadows `set_defaults(which=command)`. -/
def initNs (sp : Subparser) : PyNamespace :=
  let base := sp.flags.map (fun fp => (dest fp.1, fp.2.default))
  if base.any (fun p => p.1 == "which") then base
  else base ++ [("which", Value.vStr sp.whichDefault)]

/-- Look a flag token up in the subparser's registered options. -/
def findFlag (sp : Subparser) (opt : String) : Option (String × FlagSpec) :=
  sp.flags.find? (fun fp => fp.1 == opt)

/-- Outcome of `parse_args`: success, help printed and `sys.exit(0)`,
or an error message on stderr and `sys.exit(2)`. -/
inductive ParseResult where
  | ok (ns : PyNamespace)
  | helpExit
  | errorExit (msg : String)
deriving DecidableEq, Repr

/-- Flag processing inside the selected subparser, followed by the
required-flag check. -/
def parseTokens (sp : Subparser) (ns : PyNamespace) (seen : List String) :
    List String → ParseResult
  | [] =>
    match sp.flags.find? (fun fp => fp.2.required && !(seen.contains fp.1)) with
    | some fp => ParseResult.errorExit ("argument " ++ fp.1 ++ " is required")
    | Option.none => ParseResult.ok ns
  | tok :: rest =>
    if tok == "-h" || tok == "--help" then ParseResult.helpExit
    else if strStarts tok ['-', '-'] then
      match splitEq tok with
      | (flag, some valStr) =>
        match findFlag sp flag with
        | Option.none =>
            ParseResult.errorExit ("unrecognized arguments: " ++ tok)
        | some fp =>
          match coerceVal fp.2.type valStr with
          | Option.none =>
              ParseResult.errorExit
                ("argument " ++ fp.1 ++ ": invalid value: " ++ valStr)
          | some v =>
              parseTokens sp (nsSet ns (dest fp.1) v) (fp.1 :: seen) rest
      | (flag, Option.none) =>
        match findFlag sp flag with
        | Option.none =>
            ParseResult.errorExit ("unrecognized arguments: " ++ tok)
        | some fp =>
          match rest with
          | [] => ParseResult.errorExit
                    ("argument " ++ fp.1 ++ ": expected one argument")
          | valStr :: rest2 =>
            match coerceVal fp.2.type valStr with
            | Option.none =>
                ParseResult.errorExit
                  ("argument " ++ fp.1 ++ ": invalid value: " ++ valStr)
            | some v =>
                parseTokens sp (nsSet ns (dest fp.1) v) (fp.1 :: seen) rest2
    else ParseResult.errorExit ("unrecognized arguments: " ++ tok)

/-- Python 2.7 argparse abbreviates unambiguous long options.  The
top-level parser's only long option is `--help`, so any token of at
least three characters that is a leading run of `--help` matches it:
`--h`, `--he`, `--hel` and `--help` itself (a bare `--` is the
positional separator, not an option). -/
def isHelpAbbrev (t : String) : Bool :=
  charsStartWith ("--help".data) t.data && decide (3 ≤ t.data.length)

/-- Top-level `parse_args` over the built parser: the subcommand
positional is required (Python 2.7 argparse), `-h`/`--help` and the
unambiguous long-option abbreviations `--h`/`--he`/`--hel` print help
and exit 0, an unknown option or choice errors and exits 2. -/
def parse_args (pr : Parser) (argv : List String) : ParseResult :=
  match argv with
  | [] => ParseResult.errorExit "too few arguments"
  | t :: rest =>
    if t == "-h" || isHelpAbbrev t then ParseResult.helpExit
    else if strStarts t ['-'] then
      ParseResult.errorExit ("unrecognized arguments: " ++ t)
    else
      match pr.subparsers.find? (fun sp => sp.name == t) with
      | Option.none => ParseResult.errorExit ("invalid choice: " ++ t)
      | some sp => parseTokens sp (initNs sp) [] rest

/-- Python `%s` formatting / key display of a value. -/
def pyStr : Value → String
  | Value.vNone => "None"
  | Value.vInt n => toString n
  | Value.vStr s => s

/-- Dict lookup in the registry (`self.command_list[key]`). -/
def lookupReg (reg : Registry) (k : String) : Option Module :=
  (reg.find? (fun p => p.1 == k)).map (fun p => p.2)

/-- Outcome of `CommandRunner.run`. -/
inductive RunResult where
  | exit (code : Nat) (stderrMsg : Option String)
  | done (stdout : List String)
  | raised (e : PyError)
deriving DecidableEq, Repr

/-- Full observable outcome of `run`: result, the `_command_list`
attribute afterwards, and which command's `call` (if any) was actually
invoked. -/
structure RunOut where
  result : RunResult
  cacheAfter : Cache
  invoked : Option String

/-- The dispatch tail of `run`:
`command = self.command_list[args.which].Command(); command.call(args)`.
A non-string `which` (possible when a flag shadows the default) makes
the dict lookup fail with `KeyError`, as does an unknown key. -/
def dispatch (reg : Registry) (ns : PyNamespace) :
    RunResult × Option String :=
  match nsGet ns "which" with
  | Option.none => (RunResult.raised (PyError.attributeError "which"), Option.none)
  | some (Value.vStr w) =>
    match lookupReg reg w with
    | Option.none => (RunResult.raised (PyError.keyError w), Option.none)
    | some m =>
      match m.command with
      | Option.none =>
          (RunResult.raised (PyError.attributeError "Command"), Option.none)
      | some cls =>
        match cls.call with
        | Option.none =>
            (RunResult.raised (PyError.attributeError "call"), Option.none)
        | some f =>
          match f ns with
          | Except.ok out => (RunResult.done out, some w)
          | Except.error e => (RunResult.raised e, some w)
  | some v => (RunResult.raised (PyError.keyError (pyStr v)), Option.none)

/-- `CommandRunner.run`: build the parser, parse, dispatch.  Parser
construction errors and dispatch exceptions propagate; parse failures
exit the process. -/
def run (pkg : List (String × Module)) (c : Cache) (argv : List String) :
    RunOut :=
  match (argumentParser pkg c).1 with
  | Except.error e =>
      ⟨RunResult.raised e, (argumentParser pkg c).2, Option.none⟩
  | Except.ok pr =>
    match parse_args pr argv with
    | ParseResult.helpExit =>
        ⟨RunResult.exit 0 Option.none, (argumentParser pkg c).2, Option.none⟩
    | ParseResult.errorExit m =>
        ⟨RunResult.exit 2 (some m), (argumentParser pkg c).2, Option.none⟩
    | ParseResult.ok ns =>
        ⟨(dispatch (command_list pkg (argumentParser pkg c).2).1 ns).1,
         (command_list pkg (argumentParser pkg c).2).2.1,
         (dispatch (command_list pkg (argumentParser pkg c).2).1 ns).2⟩

/-- Does `hay` contain `sub` as a contiguous run? -/
def charsContain : List Char → List Char → Bool
  | hay, sub =>
    if charsStartWith hay sub then true
    else
      match hay with
      | [] => false
      | _ :: t => charsContain t sub

/-- String containment, character-wise. -/
def strContains (hay sub : String) : Bool :=
  charsContain hay.data sub.data

/-- The subparser a registry entry contributes, if it conforms. -/
def mkSub (nm : String × Module) : Option Subparser :=
  (getConforming nm.2).map fun da =>
    { name := nm.1, help := da.1, flags := da.2, whichDefault := nm.1 }

/-- A module's schema is well formed when every flag configuration uses
only options the argparse layer accepts. -/
def moduleWf (m : Module) : Bool :=
  match getConforming m with
  | Option.none => true
  | some da => da.2.all fun fp => fp.2.unsupported.isEmpty

/-- All schemas of a package are well formed. -/
def pkgWf (pkg : List (String × Module)) : Bool :=
  pkg.all fun nm => moduleWf nm.2

/-! Concrete command modules of the repository. -/

/-- `tests/sample_commands/command_with_few_parameters.py`. -/
def fewParamsCls : CommandClass where
  description := some "Help message for Command with Few Parameters"
  arguments := some
    [("--user_id", { type := FlagType.tInt, help := some "User ID" }),
     ("--password", { type := FlagType.tStr, help := some "Password" })]
  call := some (fun _ => Except.ok [])

/-- Module wrapper for `command_with_few_parameters.py`. -/
def command_with_few_parameters : Module where
  command := some fewParamsCls

/-- `tests/sample_commands/command_with_wrong_classname.py`: the class
is named `WrongCommand`, so the module has no `Command` attribute. -/
def command_with_wrong_classname : Module where
  command := Option.none

/-- `tests/sample_commands/correct_command.py`. -/
def correctCls : CommandClass where
  description := some "Help message for Correct Command"
  arguments := some
    [("--user_id", { type := FlagType.tInt, help := some "User ID" })]
  call := some (fun _ => Except.ok [])

/-- Module wrapper for `correct_command.py`. -/
def correct_command : Module where
  command := some correctCls

/-- The `tests.sample_commands` package in enumeration order. -/
def samplePkg : List (String × Module) :=
  [("command_with_few_parameters", command_with_few_parameters),
   ("command_with_wrong_classname", command_with_wrong_classname),
   ("correct_command", correct_command)]

/-- The `call` body of `commands/hello_user.py`:
`print("Hello %s!" % arguments.name)`. -/
def helloUserCall (ns : PyNamespace) : Except PyError (List String) :=
  match nsGet ns "name" with
  | Option.none => Except.error (PyError.attributeError "name")
  | some v => Except.ok ["Hello " ++ pyStr v ++ "!"]

/-- `commands/hello_user.py`. -/
def helloUserCls : CommandClass where
  description := some "Prints Hello World!"
  arguments := some
    [("--name", { type := FlagType.tStr, help := some "The name of the user",
                  metavar := some "John", required := true })]
  call := some helloUserCall

/-- Module wrapper for `hello_user.py`. -/
def hello_user : Module where
  command := some helloUserCls

/-- A package holding just the `hello_user` command. -/
def helloPkg : List (String × Module) := [("hello_user", hello_user)]

/-- A conforming command class that exposes `description` and
`arguments` but no `call` method. -/
def noCallCls : CommandClass where
  description := some "A command without an execute method"
  arguments := some []
  call := Option.none

/-- Module wrapper for the call-less command. -/
def noCallModule : Module where
  command := some noCallCls

/-- A package holding just the call-less command. -/
def noCallPkg : List (String × Module) := [("no_call_command", noCallModule)]

/-- A conforming command class whose schema passes an option the
argparse layer does not accept. -/
def badCls : CommandClass where
  description := some "A command with a malformed schema"
  arguments := some [("--x", { unsupported := ["narg_count"] })]
  call := Option.none

/-- Module wrapper for the malformed-schema command. -/
def badModule : Module where
  command := some badCls

/-- A package holding just the malformed-schema command. -/
def badPkg : List (String × Module) := [("bad_command", badModule)]

/-- A conforming command class that declares a flag literally named
`--which`, whose dest collides with the dispatch tag. -/
def whichCls : CommandClass where
  description := some "A command with a --which flag"
  arguments := some
    [("--which", { type := FlagType.tStr, help := some "collides" })]
  call := some (fun _ => Except.ok [])

/-- Module wrapper for the `--which` command. -/
def whichModule : Module where
  command := some whichCls

/-- A package holding just the `--which` command. -/
def whichPkg : List (String × Module) := [("wcmd", whichModule)]

/-- A command class whose `call` raises. -/
def boomCls : CommandClass where
  description := some "A command that raises"
  arguments := some []
  call := some (fun _ => Except.error (PyError.other "boom"))

/-- Module wrapper for the raising command. -/
def boomModule : Module where
  command := some boomCls

/-- A package holding just the raising command. -/
def boomPkg : List (String × Module) := [("boom_command", boomModule)]

/-! Lemmas about the registry construction. -/

theorem dictInsert_of_notMem (d : Registry) (k : String) (v : Module)
    (h : ∀ p ∈ d, p.1 ≠ k) : dictInsert d k v = d ++ [(k, v)] := by
  induction d with
  | nil => rfl
  | cons a t ih =>
    obtain ⟨a1, a2⟩ := a
    have ha : a1 ≠ k := h (a1, a2) (List.mem_cons_self _ _)
    simp only [dictInsert]
    rw [if_neg (show ¬((a1 == k) = true) by simp [ha])]
    simp only [List.cons_append, List.cons.injEq, true_and]
    exact ih fun p hp => h p (List.mem_cons_of_mem _ hp)

theorem foldl_dictInsert (pkg : List (String × Module)) :
    ∀ acc : Registry, (∀ p ∈ acc, ∀ q ∈ pkg, p.1 ≠ q.1) →
    ((pkg.map Prod.fst).Nodup) →
    pkg.foldl (fun d nm => dictInsert d nm.1 nm.2) acc = acc ++ pkg := by
  induction pkg with
  | nil => intro acc _ _; simp
  | cons q t ih =>
    intro acc hsep hnd
    simp only [List.map_cons, List.nodup_cons] at hnd
    simp only [List.foldl_cons]
    rw [dictInsert_of_notMem acc q.1 q.2
      (fun p hp => hsep p hp q (List.mem_cons_self _ _))]
    rw [ih (acc ++ [q]) ?_ hnd.2]
    · simp
    · intro p hp r hr
      rcases List.mem_append.mp hp with hp | hp
      · exact hsep p hp r (List.mem_cons_of_mem _ hr)
      · have hp' : p = q := by simpa using hp
        subst hp'
        intro hcon
        exact hnd.1 (hcon ▸ List.mem_map_of_mem Prod.fst hr)

theorem build_eq_self (pkg : List (String × Module))
    (h : (pkg.map Prod.fst).Nodup) : build pkg = pkg := by
  have := foldl_dictInsert pkg [] (by intro p hp; simp at hp) h
  simpa [build] using this

theorem dictInsert_ne_nil (d : Registry) (k : String) (v : Module) :
    dictInsert d k v ≠ [] := by
  cases d with
  | nil => simp [dictInsert]
  | cons a t =>
    obtain ⟨a1, a2⟩ := a
    simp only [dictInsert]
    by_cases hk : (a1 == k) = true
    · rw [if_pos hk]; simp
    · rw [if_neg hk]; simp

theorem foldl_dictInsert_ne_nil (t : List (String × Module)) :
    ∀ acc : Registry, acc ≠ [] →
    t.foldl (fun d nm => dictInsert d nm.1 nm.2) acc ≠ [] := by
  induction t with
  | nil => intro acc h; simpa using h
  | cons q r ih =>
    intro acc _
    simp only [List.foldl_cons]
    exact ih (dictInsert acc q.1 q.2) (dictInsert_ne_nil acc q.1 q.2)

theorem build_ne_nil (pkg : List (String × Module)) (h : pkg ≠ []) :
    build pkg ≠ [] := by
  cases pkg with
  | nil => exact absurd rfl h
  | cons q t =>
    show (q :: t).foldl (fun d nm => dictInsert d nm.1 nm.2) [] ≠ []
    simp only [List.foldl_cons]
    exact foldl_dictInsert_ne_nil t (dictInsert [] q.1 q.2)
      (dictInsert_ne_nil [] q.1 q.2)

/-! Lemmas about the cache behaviour of `command_list`. -/

theorem truthy_some_ne (r : Registry) (h : r ≠ []) : truthy (some r) = true := by
  cases r with
  | nil => exact absurd rfl h
  | cons a t => rfl

theorem command_list_none (pkg : List (String × Module)) :
    command_list pkg Option.none = (build pkg, some (build pkg), true) := rfl

theorem command_list_cached (pkg : List (String × Module)) (r : Registry)
    (h : r ≠ []) : command_list pkg (some r) = (r, some r, false) := by
  simp [command_list, truthy_some_ne r h]

theorem command_list_stable (pkg : List (String × Module)) :
    command_list pkg (some (build pkg)) =
      (build pkg, some (build pkg), (build pkg).isEmpty) := by
  cases hb : build pkg with
  | nil => simp [command_list, truthy, hb]
  | cons a t => simp [command_list, truthy, hb]

theorem command_list_cache_eq (pkg : List (String × Module)) (c : Cache) :
    (command_list pkg c).2.1 = some ((command_list pkg c).1) := by
  unfold command_list
  cases hc : truthy c with
  | false => simp
  | true =>
    cases c with
    | none => simp [truthy] at hc
    | some r => simp

/-! Lemmas about the parser builder. -/

theorem addFlags_ok_of_wf (args : List (String × FlagSpec)) :
    ∀ sp : Subparser, (args.all fun fp => fp.2.unsupported.isEmpty) = true →
    addFlags sp args = Except.ok
      { name := sp.name, help := sp.help, flags := sp.flags ++ args,
        whichDefault := sp.whichDefault } := by
  induction args with
  | nil => intro sp _; simp [addFlags]
  | cons fp rest ih =>
    intro sp h
    simp only [List.all_cons, Bool.and_eq_true] at h
    simp only [addFlags]
    rw [if_pos h.1, ih _ h.2]
    simp

theorem addFlags_fields (args : List (String × FlagSpec)) :
    ∀ sp sp' : Subparser, addFlags sp args = Except.ok sp' →
    sp'.name = sp.name ∧ sp'.help = sp.help ∧
    sp'.whichDefault = sp.whichDefault ∧ sp'.flags = sp.flags ++ args := by
  induction args with
  | nil =>
    intro sp sp' h
    simp only [addFlags, Except.ok.injEq] at h
    subst h
    simp
  | cons fp rest ih =>
    intro sp sp' h
    simp only [addFlags] at h
    by_cases hu : fp.2.unsupported.isEmpty = true
    · rw [if_pos hu] at h
      obtain ⟨h1, h2, h3, h4⟩ := ih _ _ h
      refine ⟨h1, h2, h3, ?_⟩
      rw [h4]
      simp
    · rw [if_neg hu] at h
      exact absurd h (by simp)

theorem addFlags_ok_all (args : List (String × FlagSpec)) :
    ∀ sp sp' : Subparser, addFlags sp args = Except.ok sp' →
    (args.all fun fp => fp.2.unsupported.isEmpty) = true := by
  induction args with
  | nil => intro sp sp' _; rfl
  | cons fp rest ih =>
    intro sp sp' h
    simp only [addFlags] at h
    by_cases hu : fp.2.unsupported.isEmpty = true
    · rw [if_pos hu] at h
      simp only [List.all_cons, hu, Bool.true_and]
      exact ih _ _ h
    · rw [if_neg hu] at h
      exact absurd h (by simp)

theorem addFlags_error (args : List (String × FlagSpec)) :
    ∀ sp : Subparser, (args.any fun fp => !fp.2.unsupported.isEmpty) = true →
    ∃ e, addFlags sp args = Except.error e := by
  induction args with
  | nil => intro sp h; simp at h
  | cons fp rest ih =>
    intro sp h
    by_cases hu : fp.2.unsupported.isEmpty = true
    · have hrest : (rest.any fun fp => !fp.2.unsupported.isEmpty) = true := by
        simpa [List.any_cons, hu] using h
      obtain ⟨e, he⟩ := ih _ hrest
      refine ⟨e, ?_⟩
      simp only [addFlags]
      rw [if_pos hu]
      exact he
    · refine ⟨PyError.typeError
        ("unexpected keyword argument " ++ fp.2.unsupported.headD ""), ?_⟩
      simp only [addFlags]
      rw [if_neg hu]

theorem buildSubparsers_wf (reg : Registry)
    (h : (reg.all fun nm => moduleWf nm.2) = true) :
    buildSubparsers reg = Except.ok (reg.filterMap mkSub) := by
  induction reg with
  | nil => rfl
  | cons nm rest ih =>
    simp only [List.all_cons, Bool.and_eq_true] at h
    cases hg : getConforming nm.2 with
    | none =>
      simp only [buildSubparsers, hg]
      rw [ih h.2]
      simp [List.filterMap_cons, mkSub, hg]
    | some da =>
      have hwf : (da.2.all fun fp => fp.2.unsupported.isEmpty) = true := by
        have h1 := h.1
        unfold moduleWf at h1
        rw [hg] at h1
        exact h1
      simp only [buildSubparsers, hg]
      rw [addFlags_ok_of_wf da.2 _ hwf, ih h.2]
      simp [List.filterMap_cons, mkSub, hg, spInit]

theorem buildSubparsers_ok_wf (reg : Registry) :
    ∀ sps, buildSubparsers reg = Except.ok sps →
    ∀ nm ∈ reg, moduleWf nm.2 = true := by
  induction reg with
  | nil => intro sps _ nm hnm; simp at hnm
  | cons q rest ih =>
    intro sps h nm hnm
    simp only [buildSubparsers] at h
    rcases List.mem_cons.mp hnm with rfl | hmem
    · cases hg : getConforming nm.2 with
      | none => unfold moduleWf; rw [hg]
      | some da =>
        simp only [hg] at h
        cases haf : addFlags (spInit nm.1 da.1) da.2 with
        | error e => simp only [haf] at h; exact absurd h (by simp)
        | ok sp1 =>
          unfold moduleWf
          rw [hg]
          exact addFlags_ok_all da.2 _ _ haf
    · cases hg : getConforming q.2 with
      | none =>
        simp only [hg] at h
        exact ih sps h nm hmem
      | some da =>
        simp only [hg] at h
        cases haf : addFlags (spInit q.1 da.1) da.2 with
        | error e => simp only [haf] at h; exact absurd h (by simp)
        | ok sp1 =>
          simp only [haf] at h
          cases hbs : buildSubparsers rest with
          | error e => simp only [hbs] at h; exact absurd h (by simp)
          | ok sps1 => exact ih sps1 hbs nm hmem

theorem buildSubparsers_mem (reg : Registry) :
    ∀ sps, buildSubparsers reg = Except.ok sps →
    ∀ sp ∈ sps, ∃ nm ∈ reg, mkSub nm = some sp := by
  induction reg with
  | nil =>
    intro sps h sp hsp
    simp only [buildSubparsers, Except.ok.injEq] at h
    subst h
    simp at hsp
  | cons q rest ih =>
    intro sps h sp hsp
    simp only [buildSubparsers] at h
    cases hg : getConforming q.2 with
    | none =>
      simp only [hg] at h
      obtain ⟨nm, h1, h2⟩ := ih sps h sp hsp
      exact ⟨nm, List.mem_cons_of_mem _ h1, h2⟩
    | some da =>
      simp only [hg] at h
      cases haf : addFlags (spInit q.1 da.1) da.2 with
      | error e => simp only [haf] at h; exact absurd h (by simp)
      | ok sp1 =>
        simp only [haf] at h
        cases hbs : buildSubparsers rest with
        | error e => simp only [hbs] at h; exact absurd h (by simp)
        | ok sps1 =>
          simp only [hbs, Except.ok.injEq] at h
          subst h
          rcases List.mem_cons.mp hsp with rfl | hmem
          · obtain ⟨hn, hh, hw, hf⟩ := addFlags_fields da.2 _ _ haf
            simp only [spInit] at hn hh hw hf
            simp only [List.nil_append] at hf
            refine ⟨q, List.mem_cons_self _ _, ?_⟩
            simp only [mkSub, hg, Option.map_some', Option.some.injEq]
            cases sp with
            | mk n1 h1 f1 w1 =>
              simp only at hn hh hw hf
              simp [Subparser.mk.injEq, hn, hh, hw, hf]
          · obtain ⟨nm, h1, h2⟩ := ih sps1 hbs sp hmem
            exact ⟨nm, List.mem_cons_of_mem _ h1, h2⟩

/-! Lemmas about namespaces and token parsing. -/

theorem nsGet_nsSet_ne (ns : PyNamespace) (k q : String) (v : Value)
    (h : q ≠ k) : nsGet (nsSet ns k v) q = nsGet ns q := by
  have hkq : (k == q) = false := by
    cases hc : k == q
    · rfl
    · exact absurd (by simpa using hc) (Ne.symm h)
  induction ns with
  | nil => simp [nsSet, nsGet, List.find?, hkq]
  | cons a t ih =>
    obtain ⟨a1, a2⟩ := a
    simp only [nsSet]
    by_cases hk : (a1 == k) = true
    · rw [if_pos hk]
      have ha1 : a1 = k := by simpa using hk
      subst ha1
      simp [nsGet, List.find?, hkq]
    · rw [if_neg hk]
      simp only [nsGet, List.find?] at ih ⊢
      by_cases hq : (a1 == q) = true
      · simp [hq]
      · simp only [show (a1 == q) = false by simpa using hq]
        exact ih

theorem find?_append_none {α : Type} (l1 l2 : List α) (p : α → Bool)
    (h : l1.find? p = Option.none) :
    (l1 ++ l2).find? p = l2.find? p := by
  induction l1 with
  | nil => simp
  | cons a t ih =>
    simp only [List.find?] at h
    by_cases ha : p a = true
    · rw [ha] at h; exact absurd h (by simp)
    · rw [show p a = false by simpa using ha] at h
      simp only [List.cons_append, List.find?]
      rw [show p a = false by simpa using ha]
      exact ih h

theorem initNs_base_no_which (sp : Subparser)
    (hw : ∀ fp ∈ sp.flags, dest fp.1 ≠ "which") :
    (sp.flags.map fun fp => (dest fp.1, fp.2.default)).find?
      (fun p => p.1 == "which") = Option.none := by
  rw [List.find?_eq_none]
  intro p hp
  obtain ⟨fp, hfp, rfl⟩ := List.mem_map.mp hp
  simpa using hw fp hfp

theorem initNs_which (sp : Subparser)
    (hw : ∀ fp ∈ sp.flags, dest fp.1 ≠ "which") :
    nsGet (initNs sp) "which" = some (Value.vStr sp.whichDefault) := by
  unfold initNs
  have hfind := initNs_base_no_which sp hw
  have hany : ((sp.flags.map fun fp => (dest fp.1, fp.2.default)).any
      fun p => p.1 == "which") = false := by
    rw [List.any_eq_false]
    intro p hp
    obtain ⟨fp, hfp, rfl⟩ := List.mem_map.mp hp
    simpa using hw fp hfp
  rw [if_neg (by simp [hany])]
  unfold nsGet
  rw [find?_append_none _ _ _ hfind]
  simp [List.find?]

theorem parseTokens_which (sp : Subparser)
    (hw : ∀ fp ∈ sp.flags, dest fp.1 ≠ "which") :
    ∀ (ns : PyNamespace) (seen : List String) (toks : List String)
    (ns' : PyNamespace), parseTokens sp ns seen toks = ParseResult.ok ns' →
    nsGet ns' "which" = nsGet ns "which" := by
  intro ns seen toks
  induction ns, seen, toks using parseTokens.induct sp with
  | case1 ns seen fp hreq =>
    intro ns' h
    simp only [parseTokens] at h
    rw [hreq] at h
    exact absurd h (by simp)
  | case2 ns seen hreq =>
    intro ns' h
    simp only [parseTokens, hreq, ParseResult.ok.injEq] at h
    rw [h]
  | case3 ns seen tok rest hh =>
    intro ns' h
    simp only [parseTokens, if_pos hh] at h
    exact absurd h (by simp)
  | case4 ns seen tok rest hh hs flag valStr hsplit hff =>
    intro ns' h
    simp only [parseTokens, if_neg hh, if_pos hs, hsplit, hff] at h
    exact absurd h (by simp)
  | case5 ns seen tok rest hh hs flag valStr hsplit fp hff hco =>
    intro ns' h
    simp only [parseTokens, if_neg hh, if_pos hs, hsplit, hff, hco] at h
    exact absurd h (by simp)
  | case6 ns seen tok rest hh hs flag valStr hsplit fp hff v hco ih =>
    intro ns' h
    simp only [parseTokens, if_neg hh, if_pos hs, hsplit, hff, hco] at h
    have hmem : fp ∈ sp.flags := List.mem_of_find?_eq_some hff
    rw [ih ns' h]
    exact nsGet_nsSet_ne ns (dest fp.1) "which" v (fun hc => hw fp hmem hc.symm)
  | case7 ns seen tok rest hh hs flag hsplit hff =>
    intro ns' h
    simp only [parseTokens, if_neg hh, if_pos hs, hsplit, hff] at h
    exact absurd h (by simp)
  | case8 ns seen tok hh hs flag hsplit fp hff =>
    intro ns' h
    simp only [parseTokens, if_neg hh, if_pos hs, hsplit, hff] at h
    exact absurd h (by simp)
  | case9 ns seen tok hh hs flag hsplit fp hff valStr rest2 hco =>
    intro ns' h
    simp only [parseTokens, if_neg hh, if_pos hs, hsplit, hff, hco] at h
    exact absurd h (by simp)
  | case10 ns seen tok hh hs flag hsplit fp hff valStr rest2 v hco ih =>
    intro ns' h
    simp only [parseTokens, if_neg hh, if_pos hs, hsplit, hff, hco] at h
    have hmem : fp ∈ sp.flags := List.mem_of_find?_eq_some hff
    rw [ih ns' h]
    exact nsGet_nsSet_ne ns (dest fp.1) "which" v (fun hc => hw fp hmem hc.symm)
  | case11 ns seen tok rest hh hs =>
    intro ns' h
    simp only [parseTokens, if_neg hh, if_neg hs] at h
    exact absurd h (by simp)

/-! Inversion and equation lemmas for `parse_args`, `argumentParser`,
`dispatch` and `run`. -/

theorem parse_args_ok_inv (pr : Parser) (t : String) (rest : List String)
    (ns : PyNamespace)
    (h : parse_args pr (t :: rest) = ParseResult.ok ns) :
    ∃ sp, pr.subparsers.find? (fun sp => sp.name == t) = some sp ∧
      parseTokens sp (initNs sp) [] rest = ParseResult.ok ns := by
  simp only [parse_args] at h
  by_cases h1 : (t == "-h" || isHelpAbbrev t) = true
  · rw [if_pos h1] at h
    exact absurd h (by simp)
  · rw [if_neg h1] at h
    by_cases h2 : strStarts t ['-'] = true
    · rw [if_pos h2] at h
      exact absurd h (by simp)
    · rw [if_neg h2] at h
      cases hf : pr.subparsers.find? (fun sp => sp.name == t) with
      | none =>
        simp only [hf] at h
        exact absurd h (by simp)
      | some sp =>
        simp only [hf] at h
        exact ⟨sp, rfl, h⟩

theorem argumentParser_snd (pkg : List (String × Module)) (c : Cache) :
    (argumentParser pkg c).2 = (command_list pkg c).2.1 := rfl

theorem argumentParser_ok_inv (pkg : List (String × Module)) (c : Cache)
    (pr : Parser) (h : (argumentParser pkg c).1 = Except.ok pr) :
    buildSubparsers (command_list pkg c).1 = Except.ok pr.subparsers := by
  unfold argumentParser at h
  cases hbs : buildSubparsers (command_list pkg c).1 with
  | error e =>
    simp only [hbs] at h
    exact absurd h (by simp)
  | ok sps =>
    simp only [hbs, Except.ok.injEq] at h
    subst h
    simp only [hbs]

theorem argumentParser_error_of_build (pkg : List (String × Module))
    (c : Cache) (e : PyError)
    (h : buildSubparsers (command_list pkg c).1 = Except.error e) :
    (argumentParser pkg c).1 = Except.error e := by
  unfold argumentParser
  simp only [h]

theorem run_build_error (pkg : List (String × Module)) (c : Cache)
    (argv : List String) (e : PyError)
    (h : (argumentParser pkg c).1 = Except.error e) :
    run pkg c argv =
      ⟨RunResult.raised e, (argumentParser pkg c).2, Option.none⟩ := by
  simp only [run, h]

theorem run_parse_help (pkg : List (String × Module)) (c : Cache)
    (argv : List String) (pr : Parser)
    (hp : (argumentParser pkg c).1 = Except.ok pr)
    (hm : parse_args pr argv = ParseResult.helpExit) :
    run pkg c argv =
      ⟨RunResult.exit 0 Option.none, (argumentParser pkg c).2, Option.none⟩ := by
  simp only [run, hp, hm]

theorem run_parse_error (pkg : List (String × Module)) (c : Cache)
    (argv : List String) (pr : Parser) (msg : String)
    (hp : (argumentParser pkg c).1 = Except.ok pr)
    (hm : parse_args pr argv = ParseResult.errorExit msg) :
    run pkg c argv =
      ⟨RunResult.exit 2 (some msg), (argumentParser pkg c).2, Option.none⟩ := by
  simp only [run, hp, hm]

theorem run_parse_ok (pkg : List (String × Module)) (c : Cache)
    (argv : List String) (pr : Parser) (ns : PyNamespace)
    (hp : (argumentParser pkg c).1 = Except.ok pr)
    (hm : parse_args pr argv = ParseResult.ok ns) :
    run pkg c argv =
      ⟨(dispatch (command_list pkg (argumentParser pkg c).2).1 ns).1,
       (command_list pkg (argumentParser pkg c).2).2.1,
       (dispatch (command_list pkg (argumentParser pkg c).2).1 ns).2⟩ := by
  simp only [run, hp, hm]

theorem dispatch_raises (reg : Registry) (ns : PyNamespace) (w : String)
    (m : Module) (cls : CommandClass)
    (f : PyNamespace → Except PyError (List String)) (e : PyError)
    (h1 : nsGet ns "which" = some (Value.vStr w))
    (h2 : lookupReg reg w = some m)
    (h3 : m.command = some cls)
    (h4 : cls.call = some f)
    (h5 : f ns = Except.error e) :
    dispatch reg ns = (RunResult.raised e, some w) := by
  simp only [dispatch, h1, h2, h3, h4, h5]

theorem dispatch_done (reg : Registry) (ns : PyNamespace) (w : String)
    (m : Module) (cls : CommandClass)
    (f : PyNamespace → Except PyError (List String)) (out : List String)
    (h1 : nsGet ns "which" = some (Value.vStr w))
    (h2 : lookupReg reg w = some m)
    (h3 : m.command = some cls)
    (h4 : cls.call = some f)
    (h5 : f ns = Except.ok out) :
    dispatch reg ns = (RunResult.done out, some w) := by
  simp only [dispatch, h1, h2, h3, h4, h5]

theorem run_registry_eq (pkg : List (String × Module)) (c : Cache)
    (hne : (command_list pkg c).1 ≠ []) :
    command_list pkg (argumentParser pkg c).2 =
      ((command_list pkg c).1, some ((command_list pkg c).1), false) := by
  rw [argumentParser_snd, command_list_cache_eq]
  exact command_list_cached pkg _ hne

theorem lookupReg_isSome_of_mem (reg : Registry) (nm : String × Module)
    (h : nm ∈ reg) : (lookupReg reg nm.1).isSome = true := by
  unfold lookupReg
  cases hf : reg.find? (fun p => p.1 == nm.1) with
  | none =>
    rw [List.find?_eq_none] at hf
    exact absurd (by simp : (nm.1 == nm.1) = true) (hf nm h)
  | some p => simp

theorem mkSub_fields (nm : String × Module) (sp : Subparser)
    (h : mkSub nm = some sp) : sp.name = nm.1 ∧ sp.whichDefault = nm.1 := by
  unfold mkSub at h
  cases hg : getConforming nm.2 with
  | none =>
    rw [hg] at h
    exact absurd h (by simp)
  | some da =>
    rw [hg] at h
    simp only [Option.map_some', Option.some.injEq] at h
    rw [← h]
    exact ⟨rfl, rfl⟩

theorem mkSub_of_addFlags (q : String × Module)
    (da : String × List (String × FlagSpec)) (sp1 : Subparser)
    (hg : getConforming q.2 = some da)
    (haf : addFlags (spInit q.1 da.1) da.2 = Except.ok sp1) :
    mkSub q = some sp1 := by
  obtain ⟨hn, hh, hw, hf⟩ := addFlags_fields da.2 _ _ haf
  simp only [spInit] at hn hh hw hf
  simp only [List.nil_append] at hf
  simp only [mkSub, hg, Option.map_some', Option.some.injEq]
  cases sp1 with
  | mk n1 h1 f1 w1 =>
    simp only at hn hh hw hf
    simp [Subparser.mk.injEq, hn, hh, hw, hf]

theorem buildSubparsers_mem_fwd (reg : Registry) :
    ∀ sps, buildSubparsers reg = Except.ok sps →
    ∀ nm ∈ reg, ∀ sp, mkSub nm = some sp → sp ∈ sps := by
  induction reg with
  | nil => intro sps h nm hnm; simp at hnm
  | cons q rest ih =>
    intro sps h nm hnm sp hmk
    simp only [buildSubparsers] at h
    rcases List.mem_cons.mp hnm with rfl | hmem
    · cases hg : getConforming nm.2 with
      | none =>
        unfold mkSub at hmk
        rw [hg] at hmk
        exact absurd hmk (by simp)
      | some da =>
        simp only [hg] at h
        cases haf : addFlags (spInit nm.1 da.1) da.2 with
        | error e => simp only [haf] at h; exact absurd h (by simp)
        | ok sp1 =>
          simp only [haf] at h
          cases hbs : buildSubparsers rest with
          | error e => simp only [hbs] at h; exact absurd h (by simp)
          | ok sps1 =>
            simp only [hbs, Except.ok.injEq] at h
            subst h
            rw [mkSub_of_addFlags nm da sp1 hg haf] at hmk
            simp only [Option.some.injEq] at hmk
            subst hmk
            exact List.mem_cons_self _ _
    · cases hg : getConforming q.2 with
      | none =>
        simp only [hg] at h
        exact ih sps h nm hmem sp hmk
      | some da =>
        simp only [hg] at h
        cases haf : addFlags (spInit q.1 da.1) da.2 with
        | error e => simp only [haf] at h; exact absurd h (by simp)
        | ok sp1 =>
          simp only [haf] at h
          cases hbs : buildSubparsers rest with
          | error e => simp only [hbs] at h; exact absurd h (by simp)
          | ok sps1 =>
            simp only [hbs, Except.ok.injEq] at h
            subst h
            exact List.mem_cons_of_mem _ (ih sps1 hbs nm hmem sp hmk)

theorem dispatch_no_call (reg : Registry) (ns : PyNamespace) (w : String)
    (m : Module) (cls : CommandClass)
    (h1 : nsGet ns "which" = some (Value.vStr w))
    (h2 : lookupReg reg w = some m)
    (h3 : m.command = some cls)
    (h4 : cls.call = Option.none) :
    dispatch reg ns =
      (RunResult.raised (PyError.attributeError "call"), Option.none) := by
  simp only [dispatch, h1, h2, h3, h4]

/-! The claims. -/

/-- C2 counterexample: on an empty namespace the first access caches the
empty mapping, which is falsy, so the second access re-enumerates the
namespace (the enumeration flag is `true` again) instead of returning
the cached mapping object.  This refutes the claim that the cached
mapping is returned without re-enumeration for every namespace. -/
theorem c2_empty_namespace_reenumerates :
    (command_list ([] : List (String × Module)) Option.none).2.1 = some [] ∧
    (command_list ([] : List (String × Module))
      ((command_list ([] : List (String × Module)) Option.none).2.1)).2.2
      = true :=
  ⟨rfl, rfl⟩

/-- C2 (amended): for every runner over a namespace containing at least
one module, the second access to `command_list` returns exactly the
mapping cached by the first access, without re-enumerating. -/
theorem c2_nonempty_cache_hit (pkg : List (String × Module)) (h : pkg ≠ []) :
    command_list pkg ((command_list pkg Option.none).2.1) =
      ((command_list pkg Option.none).1,
       (command_list pkg Option.none).2.1, false) := by
  have h2 : (command_list pkg Option.none).2.1 = some (build pkg) := rfl
  have hb : build pkg ≠ [] := build_ne_nil pkg h
  rw [h2, command_list_cached pkg (build pkg) hb]
  rfl

/-- C2 witness: the amended statement at the one-command package. -/
theorem c2_nonempty_cache_hit_witness :
    command_list helloPkg ((command_list helloPkg Option.none).2.1) =
      ((command_list helloPkg Option.none).1,
       (command_list helloPkg Option.none).2.1, false) :=
  c2_nonempty_cache_hit helloPkg (by simp [helloPkg])

/-- C3: once the registry has been built by the first access to
`command_list`, neither building the argument parser nor a full `run`
(on any argv) changes the cached mapping: the cache attribute and the
mapping returned by later accesses stay exactly the first-built
registry. -/
theorem c3_registry_immutable_after_build (pkg : List (String × Module))
    (argv : List String) :
    (argumentParser pkg ((command_list pkg Option.none).2.1)).2 =
      (command_list pkg Option.none).2.1 ∧
    (command_list pkg ((command_list pkg Option.none).2.1)).1 =
      (command_list pkg Option.none).1 ∧
    (run pkg ((command_list pkg Option.none).2.1) argv).cacheAfter =
      (command_list pkg Option.none).2.1 := by
  have hc1 : (command_list pkg Option.none).2.1 = some (build pkg) := rfl
  have hst := command_list_stable pkg
  have h1 : (argumentParser pkg (some (build pkg))).2 = some (build pkg) := by
    rw [argumentParser_snd, hst]
  refine ⟨by rw [hc1, h1], by rw [hc1, hst]; rfl, ?_⟩
  rw [hc1]
  show (run pkg (some (build pkg)) argv).cacheAfter = some (build pkg)
  cases hp : (argumentParser pkg (some (build pkg))).1 with
  | error e =>
    rw [run_build_error pkg _ argv e hp]
    exact h1
  | ok pr =>
    cases hm : parse_args pr argv with
    | helpExit =>
      rw [run_parse_help pkg _ argv pr hp hm]
      exact h1
    | errorExit msg =>
      rw [run_parse_error pkg _ argv pr msg hp hm]
      exact h1
    | ok ns =>
      rw [run_parse_ok pkg _ argv pr ns hp hm]
      show (command_list pkg (argumentParser pkg (some (build pkg))).2).2.1
        = some (build pkg)
      rw [h1, hst]

/-- C4: for the sample command whose schema declares optional flags
`--user_id : int` and `--password : str`, parsing
`["command_with_few_parameters", "--user_id=5"]` succeeds with
`user_id = 5` and `password = None`, and parsing just
`["command_with_few_parameters"]` succeeds with both attributes present
and equal to `None`. -/
theorem c4_optional_flags_parse :
    ∃ pr, (argumentParser samplePkg Option.none).1 = Except.ok pr ∧
      parse_args pr ["command_with_few_parameters", "--user_id=5"] =
        ParseResult.ok
          [("user_id", Value.vInt 5), ("password", Value.vNone),
           ("which", Value.vStr "command_with_few_parameters")] ∧
      nsGet [("user_id", Value.vInt 5), ("password", Value.vNone),
        ("which", Value.vStr "command_with_few_parameters")] "user_id" =
        some (Value.vInt 5) ∧
      nsGet [("user_id", Value.vInt 5), ("password", Value.vNone),
        ("which", Value.vStr "command_with_few_parameters")] "password" =
        some Value.vNone ∧
      parse_args pr ["command_with_few_parameters"] =
        ParseResult.ok
          [("user_id", Value.vNone), ("password", Value.vNone),
           ("which", Value.vStr "command_with_few_parameters")] ∧
      nsGet [("user_id", Value.vNone), ("password", Value.vNone),
        ("which", Value.vStr "command_with_few_parameters")] "user_id" =
        some Value.vNone ∧
      nsGet [("user_id", Value.vNone), ("password", Value.vNone),
        ("which", Value.vStr "command_with_few_parameters")] "password" =
        some Value.vNone := by
  refine ⟨_, rfl, ?_, ?_, ?_, ?_, ?_, ?_⟩ <;> decide

/-- C5: for the `hello_user` command with required flag `--name`,
running without `--name` exits with status 2 and a stderr diagnostic
containing both "required" and "--name"; running with `--name=John`
parses successfully and dispatch prints `Hello John!`. -/
theorem c5_required_flag_and_dispatch :
    (run helloPkg Option.none ["hello_user"]).result =
      RunResult.exit 2 (some "argument --name is required") ∧
    strContains "argument --name is required" "required" = true ∧
    strContains "argument --name is required" "--name" = true ∧
    (run helloPkg Option.none ["hello_user", "--name=John"]).result =
      RunResult.done ["Hello John!"] := by
  refine ⟨?_, ?_, ?_, ?_⟩ <;> decide

/-- C6 counterexample: the argv `["-h"]` names no subcommand, yet `run`
exits with status 0 (help was printed, no diagnostic on the error
stream), because argparse installs a help option; this refutes the
claim that every argv naming no subcommand exits non-zero.  No
command's execution entry point is invoked. -/
theorem c6_help_argv_exits_zero :
    (run samplePkg Option.none ["-h"]).result = RunResult.exit 0 Option.none ∧
    (run samplePkg Option.none ["-h"]).invoked = Option.none := by
  refine ⟨?_, ?_⟩ <;> decide

/-- C6 (amended): for every argv that does not request help — the first
token is neither `-h` nor an unambiguous leading run of `--help`
(`--h`, `--he`, `--hel`, `--help`) — and names no subcommand or an
unknown one, `run` exits with status 2 after writing a diagnostic to
the error stream, and no command unit's execution entry point is
invoked. -/
theorem c6_bad_subcommand_exits_nonzero (pkg : List (String × Module))
    (c : Cache) (argv : List String) (pr : Parser)
    (hp : (argumentParser pkg c).1 = Except.ok pr)
    (hbad : argv = [] ∨ ∃ t rest, argv = t :: rest ∧ (t == "-h") = false ∧
      isHelpAbbrev t = false ∧
      (pr.subparsers.all fun sp => !(sp.name == t)) = true) :
    (∃ msg, (run pkg c argv).result = RunResult.exit 2 (some msg)) ∧
    (run pkg c argv).invoked = Option.none := by
  have hparse : ∃ msg, parse_args pr argv = ParseResult.errorExit msg := by
    rcases hbad with rfl | ⟨t, rest, rfl, h1, h2, h3⟩
    · exact ⟨_, rfl⟩
    · have hcond : (t == "-h" || isHelpAbbrev t) = false := by
        rw [h1, h2]
        rfl
      simp only [parse_args]
      rw [if_neg (by simp [hcond])]
      by_cases hs : strStarts t ['-'] = true
      · rw [if_pos hs]
        exact ⟨_, rfl⟩
      · rw [if_neg hs]
        have hf : pr.subparsers.find? (fun sp => sp.name == t) = Option.none := by
          rw [List.find?_eq_none]
          intro sp hsp
          have := List.all_eq_true.mp h3 sp hsp
          simpa using this
        simp only [hf]
        exact ⟨_, rfl⟩
  obtain ⟨msg, hm⟩ := hparse
  rw [run_parse_error pkg c argv pr msg hp hm]
  exact ⟨⟨msg, rfl⟩, rfl⟩

/-- C6 witness: the amended statement at the sample package with an
unknown subcommand name. -/
theorem c6_bad_subcommand_exits_nonzero_witness :
    (∃ msg, (run samplePkg Option.none ["nope"]).result =
      RunResult.exit 2 (some msg)) ∧
    (run samplePkg Option.none ["nope"]).invoked = Option.none :=
  c6_bad_subcommand_exits_nonzero samplePkg Option.none ["nope"] _ rfl
    (Or.inr ⟨"nope", [], rfl, by decide, by decide, by decide⟩)

/-- C1: for every namespace with distinct module names and well-formed
schemas, the registry built by `command_list` contains an entry for
every module (all N names), while the built parser registers exactly
the conforming modules: its subparser (name, help) pairs are exactly
the (module name, description) pairs of the modules exposing a
`Command` with both `description` and `arguments`, so the help content
lists exactly the conforming names and descriptions and none of the
non-conforming ones. -/
theorem c1_registry_all_builder_conforming (pkg : List (String × Module))
    (hnd : (pkg.map Prod.fst).Nodup) (hwf : pkgWf pkg = true) :
    (command_list pkg Option.none).1.map Prod.fst = pkg.map Prod.fst ∧
    ∃ pr, (argumentParser pkg Option.none).1 = Except.ok pr ∧
      pr.subparsers.map (fun sp => (sp.name, sp.help)) =
        pkg.filterMap
          (fun nm => (getConforming nm.2).map (fun da => (nm.1, da.1))) := by
  have hb : build pkg = pkg := build_eq_self pkg hnd
  constructor
  · show (build pkg).map Prod.fst = pkg.map Prod.fst
    rw [hb]
  · have hbs : buildSubparsers (command_list pkg Option.none).1 =
        Except.ok (pkg.filterMap mkSub) := by
      have hr : (command_list pkg Option.none).1 = pkg := hb
      rw [hr]
      exact buildSubparsers_wf pkg hwf
    refine ⟨{ description := "Runs a management command",
              subparsers := pkg.filterMap mkSub }, ?_, ?_⟩
    · unfold argumentParser
      simp only [hbs]
    · show (pkg.filterMap mkSub).map (fun sp => (sp.name, sp.help)) = _
      rw [List.map_filterMap]
      congr 1
      funext nm
      cases hg : getConforming nm.2 with
      | none => simp [mkSub, hg]
      | some da => simp [mkSub, hg]

/-- C1 witness: the sample package with two conforming modules and one
non-conforming one (wrong class name). -/
theorem c1_registry_all_builder_conforming_witness :
    (command_list samplePkg Option.none).1.map Prod.fst =
      samplePkg.map Prod.fst ∧
    ∃ pr, (argumentParser samplePkg Option.none).1 = Except.ok pr ∧
      pr.subparsers.map (fun sp => (sp.name, sp.help)) =
        samplePkg.filterMap
          (fun nm => (getConforming nm.2).map (fun da => (nm.1, da.1))) :=
  c1_registry_all_builder_conforming samplePkg (by decide) (by decide)

/-- C7: if any registry entry exposes a `Command` with both
`description` and `arguments` but its schema passes an option the
argparse layer rejects, then building the parser propagates the
underlying construction error (the result is an error, not a parser
with that unit skipped): the `try` block only catches
`AttributeError`, not the `TypeError` from `add_argument`. -/
theorem c7_malformed_schema_propagates (pkg : List (String × Module))
    (c : Cache) (nm : String × Module) (cls : CommandClass) (d : String)
    (args : List (String × FlagSpec))
    (hmem : nm ∈ (command_list pkg c).1)
    (hcls : nm.2.command = some cls)
    (hd : cls.description = some d)
    (ha : cls.arguments = some args)
    (hbad : (args.any fun fp => !fp.2.unsupported.isEmpty) = true) :
    ∃ e, (argumentParser pkg c).1 = Except.error e := by
  cases hbs : buildSubparsers (command_list pkg c).1 with
  | error e => exact ⟨e, argumentParser_error_of_build pkg c e hbs⟩
  | ok sps =>
    exfalso
    have hwf := buildSubparsers_ok_wf (command_list pkg c).1 sps hbs nm hmem
    have hg : getConforming nm.2 = some (d, args) := by
      simp only [getConforming, hcls, hd, ha]
    unfold moduleWf at hwf
    rw [hg] at hwf
    obtain ⟨fp, hfp, hbadfp⟩ := List.any_eq_true.mp hbad
    have hall := List.all_eq_true.mp hwf fp hfp
    rw [hall] at hbadfp
    exact absurd hbadfp (by simp)

/-- C7 witness: the package holding the malformed-schema command. -/
theorem c7_malformed_schema_propagates_witness :
    ∃ e, (argumentParser badPkg Option.none).1 = Except.error e :=
  c7_malformed_schema_propagates badPkg Option.none
    ("bad_command", badModule) badCls "A command with a malformed schema"
    [("--x", { unsupported := ["narg_count"] })]
    (List.mem_singleton.mpr rfl) rfl rfl rfl (by decide)

/-- C8: (a) every command unit exposing `description` and `arguments`
still appears in the built parser (a subparser with its name,
description and schema), whether or not it has a `call` method; (b) for
every such unit with no `call` method, whenever a successful parse
dispatches to it, `run` raises a missing-attribute error
(`AttributeError` on `call`) rather than silently doing nothing; (c) in
general, `run` wraps no handler around the invoked unit's execution:
whenever the dispatched `call` raises, `run`'s outcome is exactly that
exception, unmodified. -/
theorem c8_missing_call_and_propagation :
    (∀ (pkg : List (String × Module)) (c : Cache) (pr : Parser)
       (nm : String × Module) (cls : CommandClass) (d : String)
       (args : List (String × FlagSpec)),
       (argumentParser pkg c).1 = Except.ok pr →
       nm ∈ (command_list pkg c).1 →
       nm.2.command = some cls →
       cls.description = some d →
       cls.arguments = some args →
       ∃ sp ∈ pr.subparsers, sp.name = nm.1 ∧ sp.help = d ∧
         sp.flags = args) ∧
    (∀ (pkg : List (String × Module)) (c : Cache) (argv : List String)
       (pr : Parser) (ns : PyNamespace) (w : String) (m : Module)
       (cls : CommandClass),
       (argumentParser pkg c).1 = Except.ok pr →
       parse_args pr argv = ParseResult.ok ns →
       nsGet ns "which" = some (Value.vStr w) →
       lookupReg (command_list pkg (argumentParser pkg c).2).1 w = some m →
       m.command = some cls →
       cls.call = Option.none →
       (run pkg c argv).result =
         RunResult.raised (PyError.attributeError "call")) ∧
    (∀ (pkg : List (String × Module)) (c : Cache) (argv : List String)
       (pr : Parser) (ns : PyNamespace) (w : String) (m : Module)
       (cls : CommandClass) (f : PyNamespace → Except PyError (List String))
       (e : PyError),
       (argumentParser pkg c).1 = Except.ok pr →
       parse_args pr argv = ParseResult.ok ns →
       nsGet ns "which" = some (Value.vStr w) →
       lookupReg (command_list pkg (argumentParser pkg c).2).1 w = some m →
       m.command = some cls → cls.call = some f →
       f ns = Except.error e →
       (run pkg c argv).result = RunResult.raised e) := by
  refine ⟨?_, ?_, ?_⟩
  · intro pkg c pr nm cls d args hp hmem hcls hd ha
    have hbs := argumentParser_ok_inv pkg c pr hp
    have hg : getConforming nm.2 = some (d, args) := by
      simp only [getConforming, hcls, hd, ha]
    have hmk : mkSub nm = some (⟨nm.1, d, args, nm.1⟩ : Subparser) := by
      simp [mkSub, hg]
    exact ⟨_, buildSubparsers_mem_fwd (command_list pkg c).1 pr.subparsers
      hbs nm hmem _ hmk, rfl, rfl, rfl⟩
  · intro pkg c argv pr ns w m cls hp hm h1 h2 h3 h4
    rw [run_parse_ok pkg c argv pr ns hp hm]
    show (dispatch (command_list pkg (argumentParser pkg c).2).1 ns).1 =
      RunResult.raised (PyError.attributeError "call")
    rw [dispatch_no_call _ ns w m cls h1 h2 h3 h4]
  · intro pkg c argv pr ns w m cls f e hp hm h1 h2 h3 h4 h5
    rw [run_parse_ok pkg c argv pr ns hp hm]
    show (dispatch (command_list pkg (argumentParser pkg c).2).1 ns).1 =
      RunResult.raised e
    rw [dispatch_raises _ ns w m cls f e h1 h2 h3 h4 h5]

/-- C8 witness: all three parts at concrete inputs — the call-less unit
registers its subparser and raises `AttributeError` on dispatch, and a
raising `call` propagates its exception out of `run` unmodified. -/
theorem c8_missing_call_and_propagation_witness :
    (∃ sp ∈ (Parser.mk "Runs a management command"
        [Subparser.mk "no_call_command"
          "A command without an execute method" [] "no_call_command"]).subparsers,
      sp.name = "no_call_command" ∧
      sp.help = "A command without an execute method" ∧ sp.flags = []) ∧
    (run noCallPkg Option.none ["no_call_command"]).result =
      RunResult.raised (PyError.attributeError "call") ∧
    (run boomPkg Option.none ["boom_command"]).result =
      RunResult.raised (PyError.other "boom") :=
  ⟨c8_missing_call_and_propagation.1 noCallPkg Option.none _
      ("no_call_command", noCallModule) noCallCls
      "A command without an execute method" [] rfl
      (List.mem_singleton.mpr rfl) rfl rfl rfl,
   c8_missing_call_and_propagation.2.1 noCallPkg Option.none
      ["no_call_command"] _ _ "no_call_command" noCallModule noCallCls
      rfl rfl rfl rfl rfl rfl,
   c8_missing_call_and_propagation.2.2 boomPkg Option.none ["boom_command"]
      _ _ "boom_command" boomModule boomCls _ (PyError.other "boom")
      rfl rfl rfl rfl rfl rfl rfl⟩

/-- C9 counterexample: a conforming command may declare a flag literally
named `--which`; its argparse action default then shadows
`set_defaults(which=command)`, so parsing an argv that selects the
command can yield a `which` different from the selected command name,
and dispatch then fails with a `KeyError` instead of invoking the
selected module's command.  This refutes the round-trip claim as
universally stated. -/
theorem c9_which_flag_breaks_roundtrip :
    (∃ pr, (argumentParser whichPkg Option.none).1 = Except.ok pr ∧
      parse_args pr ["wcmd", "--which=ghost"] =
        ParseResult.ok [("which", Value.vStr "ghost")]) ∧
    nsGet [("which", Value.vStr "ghost")] "which" ≠
      some (Value.vStr "wcmd") ∧
    (run whichPkg Option.none ["wcmd", "--which=ghost"]).result =
      RunResult.raised (PyError.keyError "ghost") := by
  refine ⟨⟨_, rfl, by decide⟩, by decide, by decide⟩

/-- C9 (amended): provided no subparser declares a flag whose dest is
`which`, successfully parsing an argv that selects conforming command
`cmd` yields a parsed structure whose `which` equals `cmd`, and `run`
invokes exactly the `call` of the `Command` of the module the registry
maps `cmd` to, passing the full parsed structure: its outcome is the
outcome of that `call` on the parsed namespace. -/
theorem c9_roundtrip_dispatch (pkg : List (String × Module)) (c : Cache)
    (cmd : String) (rest : List String) (pr : Parser) (ns : PyNamespace)
    (m : Module) (cls : CommandClass)
    (f : PyNamespace → Except PyError (List String))
    (hp : (argumentParser pkg c).1 = Except.ok pr)
    (hm : parse_args pr (cmd :: rest) = ParseResult.ok ns)
    (hl : lookupReg (command_list pkg (argumentParser pkg c).2).1 cmd
      = some m)
    (hcls : m.command = some cls)
    (hcall : cls.call = some f)
    (hw : ∀ sp ∈ pr.subparsers, ∀ fp ∈ sp.flags, dest fp.1 ≠ "which") :
    nsGet ns "which" = some (Value.vStr cmd) ∧
    (run pkg c (cmd :: rest)).invoked = some cmd ∧
    (∀ out, f ns = Except.ok out →
      (run pkg c (cmd :: rest)).result = RunResult.done out) ∧
    (∀ e, f ns = Except.error e →
      (run pkg c (cmd :: rest)).result = RunResult.raised e) := by
  obtain ⟨sp, hf, hpt⟩ := parse_args_ok_inv pr cmd rest ns hm
  have hspmem : sp ∈ pr.subparsers := List.mem_of_find?_eq_some hf
  have hname : sp.name = cmd := by simpa using List.find?_some hf
  have hbs := argumentParser_ok_inv pkg c pr hp
  obtain ⟨nm, hnm, hmk⟩ :=
    buildSubparsers_mem (command_list pkg c).1 pr.subparsers hbs sp hspmem
  obtain ⟨hn, hwd⟩ := mkSub_fields nm sp hmk
  have hwflags : ∀ fp ∈ sp.flags, dest fp.1 ≠ "which" := hw sp hspmem
  have hwdc : sp.whichDefault = cmd := by
    rw [hwd, ← hn]
    exact hname
  have hwhich : nsGet ns "which" = some (Value.vStr cmd) := by
    rw [parseTokens_which sp hwflags (initNs sp) [] rest ns hpt,
      initNs_which sp hwflags, hwdc]
  refine ⟨hwhich, ?_, ?_, ?_⟩
  · cases hfe : f ns with
    | ok out =>
      rw [run_parse_ok pkg c (cmd :: rest) pr ns hp hm]
      show (dispatch (command_list pkg (argumentParser pkg c).2).1 ns).2 =
        some cmd
      rw [dispatch_done _ ns cmd m cls f out hwhich hl hcls hcall hfe]
    | error e =>
      rw [run_parse_ok pkg c (cmd :: rest) pr ns hp hm]
      show (dispatch (command_list pkg (argumentParser pkg c).2).1 ns).2 =
        some cmd
      rw [dispatch_raises _ ns cmd m cls f e hwhich hl hcls hcall hfe]
  · intro out hout
    rw [run_parse_ok pkg c (cmd :: rest) pr ns hp hm]
    show (dispatch (command_list pkg (argumentParser pkg c).2).1 ns).1 =
      RunResult.done out
    rw [dispatch_done _ ns cmd m cls f out hwhich hl hcls hcall hout]
  · intro e he
    rw [run_parse_ok pkg c (cmd :: rest) pr ns hp hm]
    show (dispatch (command_list pkg (argumentParser pkg c).2).1 ns).1 =
      RunResult.raised e
    rw [dispatch_raises _ ns cmd m cls f e hwhich hl hcls hcall he]

/-- C9 witness: the amended round trip at the sample package's
`correct_command`. -/
theorem c9_roundtrip_dispatch_witness :
    (run samplePkg Option.none ["correct_command"]).invoked =
      some "correct_command" ∧
    (run samplePkg Option.none ["correct_command"]).result =
      RunResult.done [] := by
  have h := c9_roundtrip_dispatch samplePkg Option.none "correct_command" []
    _ _ correct_command correctCls _ rfl rfl rfl rfl rfl (by decide)
  exact ⟨h.2.1, h.2.2.1 [] rfl⟩

/-- C10 counterexample: with a conforming command declaring a flag
literally named `--which`, parsing `["wcmd"]` returns normally, yet the
resulting `which` is `None` (the flag's action default shadows the
subparser default), so the dispatcher's registry lookup fails with a
missing-key error.  This refutes the claim that a successful parse
always carries a `which` that is a key of `command_list`. -/
theorem c10_which_flag_breaks_lookup :
    (∃ pr, (argumentParser whichPkg Option.none).1 = Except.ok pr ∧
      parse_args pr ["wcmd"] = ParseResult.ok [("which", Value.vNone)]) ∧
    (run whichPkg Option.none ["wcmd"]).result =
      RunResult.raised (PyError.keyError "None") := by
  refine ⟨⟨_, rfl, by decide⟩, by decide⟩

/-- C10 (amended): provided no subparser declares a flag whose dest is
`which`, every successful parse yields a string `which` value that is a
key present in the registry used by `run`'s dispatch, so the lookup
`self.command_list[args.which]` cannot fail with a missing-key
error. -/
theorem c10_lookup_safe (pkg : List (String × Module)) (c : Cache)
    (argv : List String) (pr : Parser) (ns : PyNamespace)
    (hp : (argumentParser pkg c).1 = Except.ok pr)
    (hm : parse_args pr argv = ParseResult.ok ns)
    (hw : ∀ sp ∈ pr.subparsers, ∀ fp ∈ sp.flags, dest fp.1 ≠ "which") :
    ∃ w, nsGet ns "which" = some (Value.vStr w) ∧
      (lookupReg (command_list pkg (argumentParser pkg c).2).1 w).isSome
        = true := by
  cases argv with
  | nil => exact absurd hm (by simp [parse_args])
  | cons t rest =>
    obtain ⟨sp, hf, hpt⟩ := parse_args_ok_inv pr t rest ns hm
    have hspmem : sp ∈ pr.subparsers := List.mem_of_find?_eq_some hf
    have hbs := argumentParser_ok_inv pkg c pr hp
    obtain ⟨nm, hnm, hmk⟩ :=
      buildSubparsers_mem (command_list pkg c).1 pr.subparsers hbs sp hspmem
    obtain ⟨hn, hwd⟩ := mkSub_fields nm sp hmk
    have hwflags : ∀ fp ∈ sp.flags, dest fp.1 ≠ "which" := hw sp hspmem
    have hne : (command_list pkg c).1 ≠ [] := by
      intro hcon
      rw [hcon] at hnm
      simp at hnm
    refine ⟨sp.whichDefault, ?_, ?_⟩
    · rw [parseTokens_which sp hwflags (initNs sp) [] rest ns hpt]
      exact initNs_which sp hwflags
    · rw [run_registry_eq pkg c hne]
      show (lookupReg (command_list pkg c).1 sp.whichDefault).isSome = true
      rw [hwd]
      exact lookupReg_isSome_of_mem (command_list pkg c).1 nm hnm

/-- C10 witness: the amended statement at the sample package's
`correct_command`. -/
theorem c10_lookup_safe_witness :
    ∃ w, nsGet [("user_id", Value.vNone),
        ("which", Value.vStr "correct_command")] "which" =
      some (Value.vStr w) ∧
      (lookupReg (command_list samplePkg
        (argumentParser samplePkg Option.none).2).1 w).isSome = true :=
  c10_lookup_safe samplePkg Option.none ["correct_command"] _
    [("user_id", Value.vNone), ("which", Value.vStr "correct_command")]
    rfl rfl (by decide)

end Manage
